import Mathlib

/-!
Shallow embedding of `src/utils/ftptop.c` (ProFTPD's ftptop utility) and
proofs about its option parsing, session classification, counter
aggregation, row formatting, and display loop.
-/

set_option maxRecDepth 4000

namespace Ftptop

/-! ## String scanning: a model of C `strstr` used as a boolean test -/

/-- Does `needle` occur at the head of `hay`? -/
def headMatch : List Char → List Char → Bool
  | [], _ => true
  | _ :: _, [] => false
  | a :: as, b :: bs => a == b && headMatch as bs

/-- Does `needle` occur anywhere in `hay`? (Searches each suffix.) -/
def subSearch (needle : List Char) : List Char → Bool
  | [] => headMatch needle []
  | b :: bs => headMatch needle (b :: bs) || subSearch needle bs

/-- Model of `strstr(hay, needle) != NULL`: substring containment. -/
def strstr (hay needle : String) : Bool :=
  subSearch needle.toList hay.toList

/-! ## Constants from ftptop.c -/

def FTPTOP_VERSION : String := "ftptop/0.8.2"

def program : String := "ftptop"

def FTPTOP_SHOW_DOWNLOAD : Nat := 1
def FTPTOP_SHOW_UPLOAD : Nat := 2
def FTPTOP_SHOW_IDLE : Nat := 4
def FTPTOP_SHOW_ALL : Nat :=
  FTPTOP_SHOW_DOWNLOAD ||| FTPTOP_SHOW_UPLOAD ||| FTPTOP_SHOW_IDLE

/-- 32-bit `unsigned int` mask (`display_session` has that type in C). -/
def UINT_MASK : Nat := 2 ^ 32 - 1

/-- The C expression `~FTPTOP_SHOW_IDLE` on a 32-bit unsigned int. -/
def NOT_SHOW_IDLE : Nat := UINT_MASK ^^^ FTPTOP_SHOW_IDLE

/-! ## Scoreboard data -/

/-- One scoreboard entry (`pr_scoreboard_entry_t` fields ftptop reads). -/
structure ScoreEntry where
  sce_pid : Nat
  sce_user : String
  sce_client_addr : String
  sce_server_addr : String
  sce_cmd : String
deriving DecidableEq, Repr

/-- The four failure kinds of `util_open_scoreboard` as dispatched by
`scoreboard_open`. -/
inductive ScoreboardError where
  | notAccessible (sysErr : String)
  | badMagic
  | olderVersion
  | newerVersion
deriving DecidableEq, Repr

/-- The diagnostic `scoreboard_open` prints to stderr for each failure. -/
def scoreboard_open_msg : ScoreboardError → String
  | .notAccessible e => program ++ ": unable to open scoreboard: " ++ e ++ "\n"
  | .badMagic => program ++ ": scoreboard is corrupted or old\n"
  | .olderVersion => program ++ ": scoreboard is too old\n"
  | .newerVersion => program ++ ": scoreboard is too new\n"

/-! ## Counters and poll state -/

/-- The global session counters of ftptop.c. -/
structure Counters where
  ftp_nsessions : Nat
  ftp_nuploads : Nat
  ftp_ndownloads : Nat
  ftp_nidles : Nat
deriving DecidableEq, Repr

/-- The mutable poll state: counters plus the `ftp_sessions` row buffer. -/
structure PollState where
  counters : Counters
  ftp_sessions : List String
deriving DecidableEq, Repr

def initPollState : PollState := ⟨⟨0, 0, 0, 0⟩, []⟩

/-- `clear_counters`: frees the row buffer and zeroes every counter. -/
def clear_counters (_ : PollState) : PollState := initPollState

/-! ## Classification and row formatting -/

/-- The status symbol assigned to a session row. -/
inductive Status where
  | A | I | D | U | L
deriving DecidableEq, Repr

def statusStr : Status → String
  | .A => "A"
  | .I => "I"
  | .D => "D"
  | .U => "U"
  | .L => "L"

/-- The ordered first-match status rules of the loop body in
`read_scoreboard` (lines 174-199 of ftptop.c). -/
def classify (cmd : String) : Status :=
  if strstr cmd "(idle)" then Status.I
  else if strstr cmd "RETR" then Status.D
  else if strstr cmd "STOR" || strstr cmd "APPE" || strstr cmd "STOU" then Status.U
  else if strstr cmd "LIST" || strstr cmd "NLST" then Status.L
  else Status.A

/-- Which counter the classification bumps (I, D and U each have a bucket;
L and A have none). -/
def bumpCounters (c : Counters) : Status → Counters
  | .I => { c with ftp_nidles := c.ftp_nidles + 1 }
  | .D => { c with ftp_ndownloads := c.ftp_ndownloads + 1 }
  | .U => { c with ftp_nuploads := c.ftp_nuploads + 1 }
  | _ => c

/-- The `continue` filter checks: a row is emitted unless its category is
excluded from `display_session`; L and A rows are always emitted. -/
def shouldEmit (display_session : Nat) : Status → Bool
  | .I => display_session &&& FTPTOP_SHOW_IDLE != 0
  | .D => display_session &&& FTPTOP_SHOW_DOWNLOAD != 0
  | .U => display_session &&& FTPTOP_SHOW_UPLOAD != 0
  | _ => true

/-- `l.take n` rebuilt as a String: models a `%-.Ns` precision truncation. -/
def strTake (n : Nat) (s : String) : String :=
  ⟨s.toList.take n⟩

/-- Left-justified minimum-width padding: models `%-Nd` / `%-Ns`. -/
def padRight (s : String) (w : Nat) : String :=
  s ++ ⟨List.replicate (w - s.length) ' '⟩

/-- The text `snprintf` would produce for FTPTOP_DISPLAY_FORMAT
`"%-5d %s %-.10s %-.7s %s 0 %-.20s\n"` with unbounded buffer. -/
def rowText (pid : Nat) (status user client server cmd : String) : String :=
  padRight (Nat.repr pid) 5 ++ " " ++ status ++ " " ++ strTake 10 user ++ " " ++
    strTake 7 client ++ " " ++ server ++ " 0 " ++ strTake 20 cmd ++ "\n"

/-- The formatted row: `snprintf` into the 1024-byte `buf` keeps at most
1023 characters. -/
def formatRow (pid : Nat) (status user client server cmd : String) : String :=
  strTake 1023 (rowText pid status user client server cmd)

/-- One iteration of the `read_scoreboard` while-loop for entry `sc`:
classify, bump the matching counter, then either skip (filtered out) or
append the formatted row and bump `ftp_nsessions`. -/
def processEntry (display_session : Nat) (st : PollState) (sc : ScoreEntry) :
    PollState :=
  let status := classify sc.sce_cmd
  let c := bumpCounters st.counters status
  if shouldEmit display_session status then
    { counters := { c with ftp_nsessions := c.ftp_nsessions + 1 },
      ftp_sessions := st.ftp_sessions ++
        [formatRow sc.sce_pid (statusStr status) sc.sce_user
          sc.sce_client_addr sc.sce_server_addr sc.sce_cmd] }
  else
    { st with counters := c }

/-- `read_scoreboard`: on an open failure it returns at once (the caller
has already cleared the state); otherwise it folds every scoreboard entry
through the loop body. -/
def read_scoreboard (display_session : Nat)
    (board : Except ScoreboardError (List ScoreEntry)) (st : PollState) :
    PollState :=
  match board with
  | .error _ => st
  | .ok scores => scores.foldl (processEntry display_session) st

/-- The data part of one `show_sessions` call: `clear_counters` then
`read_scoreboard`. -/
def pollStep (display_session : Nat)
    (board : Except ScoreboardError (List ScoreEntry)) (st : PollState) :
    PollState :=
  read_scoreboard display_session board (clear_counters st)

/-- The bold summary line printed by `show_sessions`. -/
def summaryLine (c : Counters) : String :=
  Nat.repr c.ftp_nsessions ++ " Total FTP Sessions: " ++
    Nat.repr c.ftp_ndownloads ++ " downloading, " ++
    Nat.repr c.ftp_nuploads ++ " uploading, " ++
    Nat.repr c.ftp_nidles ++ " idle\n"

/-- The reverse-video column header of `show_sessions`. -/
def headerLine : String := "PID   S USER     ADDR        SRVR    TIME COMMAND"

/-- The whole frame `show_sessions` paints, given the `ctime` text of the
current wall clock. -/
def renderFrame (timeStr : String) (st : PollState) : String :=
  FTPTOP_VERSION ++ ": " ++ timeStr ++ summaryLine st.counters ++ "\n" ++
    headerLine ++ "\n" ++ String.join st.ftp_sessions

/-! ## Option parsing -/

/-- A run configuration: `delay`, `display_session`, and the scoreboard
path override installed via `util_set_scoreboard`. -/
structure Config where
  delay : Int
  display_session : Nat
  scoreboard : Option String
deriving DecidableEq, Repr

/-- The defaults: `delay = 2`, `display_session = FTPTOP_SHOW_ALL`. -/
def initConfig : Config := ⟨2, FTPTOP_SHOW_ALL, none⟩

/-- C-locale `isspace`. -/
def isSpaceCh (c : Char) : Bool :=
  c == ' ' || c == '\t' || c == '\n' || c == '\x0b' || c == '\x0c' || c == '\r'

/-- Accumulate the leading decimal digits, stopping at the first
non-digit. -/
def digitsVal : List Char → Nat → Nat
  | [], acc => acc
  | c :: cs, acc =>
    if c.isDigit then digitsVal cs (acc * 10 + (c.toNat - '0'.toNat)) else acc

/-- Model of C `atoi`: skip whitespace, optional sign, then leading
digits; anything else contributes nothing (overflow is not modelled). -/
def atoiChars : List Char → Int
  | [] => 0
  | c :: cs =>
    if isSpaceCh c then atoiChars cs
    else if c == '-' then -(Int.ofNat (digitsVal cs 0))
    else if c == '+' then Int.ofNat (digitsVal cs 0)
    else Int.ofNat (digitsVal (c :: cs) 0)

def atoi (s : String) : Int := atoiChars s.toList

/-- Is the first character a decimal digit? -/
def headIsDigit : List Char → Bool
  | [] => false
  | c :: _ => c.isDigit

/-- Does the string lack any leading numeric part (after whitespace and an
optional sign, the next character is not a digit)?  On such strings C
`atoi` yields 0. -/
def noDigitStart : List Char → Bool
  | [] => true
  | c :: cs =>
    if isSpaceCh c then noDigitStart cs
    else if c == '-' || c == '+' then !headIsDigit cs
    else !c.isDigit

/-- The command-line options recognized by `process_opts`
(optstring "Dd:f:hIiUV"; `unknown` is getopt's `?` case). -/
inductive Opt where
  | D
  | d (arg : String)
  | f (arg : String)
  | h
  | I
  | i
  | U
  | V
  | unknown
deriving DecidableEq, Repr

/-- The usage text printed by `usage()`. -/
def usageText : String :=
  "usage: ftptop [options]\n" ++
  "\t-D      \t\tshow only downloading sessions\n" ++
  "\t-d <num>\t\trefresh delay in seconds\n" ++
  "\t-f      \t\tconfigures the ScoreboardFile to use\n" ++
  "\t-h      \t\tdisplays this message\n" ++
  "\t-i      \t\tignores idle connections when listing\n" ++
  "\t-U      \t\tshow only uploading sessions\n" ++
  "\t-V      \t\tshows version\n\n"

/-- One `switch` arm of `process_opts`.  `Except.error (code, msg)` models
`exit(code)` after printing `msg` (usage and version exit 0; a negative
delay exits 1). -/
def stepOpt (cfg : Config) : Opt → Except (Nat × String) Config
  | .D => .ok { cfg with display_session := 0 ||| FTPTOP_SHOW_DOWNLOAD }
  | .d arg =>
    let n := atoi arg
    if n < 0 then
      .error (1, program ++ ": negative delay illegal: " ++ n.repr ++ "\n")
    else
      .ok { cfg with delay := n }
  | .f arg => .ok { cfg with scoreboard := some arg }
  | .h => .error (0, usageText)
  | .I => .ok { cfg with display_session := 0 ||| FTPTOP_SHOW_IDLE }
  | .i => .ok { cfg with display_session := cfg.display_session &&& NOT_SHOW_IDLE }
  | .U => .ok { cfg with display_session := 0 ||| FTPTOP_SHOW_UPLOAD }
  | .V => .error (0, FTPTOP_VERSION ++ "\n")
  | .unknown => .ok cfg

/-- `process_opts`: the getopt loop over the argument vector, stopping at
the first option whose arm exits the process. -/
def process_opts (cfg : Config) : List Opt → Except (Nat × String) Config
  | [] => .ok cfg
  | o :: rest =>
    match stepOpt cfg o with
    | .ok cfg2 => process_opts cfg2 rest
    | .error e => .error e

/-! ## The display loop of `main` -/

/-- The ncurses contract for `halfdelay(tenths)`: it fails with ERR
unless `1 ≤ tenths ≤ 255`, and succeeds otherwise.  `main` passes
`delay * 10`, so the call fails for every iteration when `delay = 0`
(tenths = 0) or `delay > 25` (tenths > 255). -/
def halfdelayOk (delay : Nat) : Bool :=
  decide (1 ≤ delay * 10) && decide (delay * 10 ≤ 255)

/-- What the environment feeds one iteration of the endless loop in
`main`: what `getch()` would return if called (`key`; `none` models
ERR / timeout with no key pending), and the scoreboard contents this
iteration's `show_sessions` poll will see. -/
structure LoopInput where
  key : Option Char
  board : Except ScoreboardError (List ScoreEntry)

/-- The character `c` read by an iteration: `getch` runs only when
`halfdelay(delay * 10)` did not return ERR, else `c` stays -1 (here:
`none`). -/
def readKey (delay : Nat) (i : LoopInput) : Option Char :=
  if halfdelayOk delay then i.key else none

/-- The quit test `c != -1 && tolower(c) == 'q'`. -/
def isQuit : Option Char → Bool
  | some ch => ch.toLower == 'q'
  | none => false

/-- The observable outcome of a (finite window of the) run: the poll
states painted, how many times `endwin()` ran, and the exit code if
`finish` was reached. -/
structure RunTrace where
  frames : List PollState
  endwins : Nat
  exitCode : Option Nat
deriving DecidableEq, Repr

/-- The endless `for (;;)` loop of `main`, observed for a finite input
trace: each iteration calls `halfdelay(delay * 10)`, reads a key only if
that succeeded, checks for the quit key (calling `finish`, which runs
`endwin` once and exits 0), else runs `show_sessions` and loops.  An
exhausted input list means the loop is still running. -/
def displayLoop (delay display_session : Nat) : PollState → List LoopInput → RunTrace
  | _, [] => ⟨[], 0, none⟩
  | st, i :: rest =>
    if isQuit (readKey delay i) then ⟨[], 1, some 0⟩
    else
      let st2 := pollStep display_session i.board st
      let t := displayLoop delay display_session st2 rest
      ⟨st2 :: t.frames, t.endwins, t.exitCode⟩

/-- `main` after startup: the initial `show_sessions` paint, then the
endless loop with `delay` passed to `halfdelay` each iteration. -/
def ftopMain (delay : Nat) (display_session : Nat)
    (board0 : Except ScoreboardError (List ScoreEntry))
    (inputs : List LoopInput) : RunTrace :=
  let st1 := pollStep display_session board0 initPollState
  let t := displayLoop delay display_session st1 inputs
  ⟨st1 :: t.frames, t.endwins, t.exitCode⟩

/-! ## Concrete scoreboard used for the upload-filter scenario -/

def idleEntry : ScoreEntry := ⟨1001, "alice", "10.0.0.1", "srv1", "(idle)"⟩
def dlEntry : ScoreEntry := ⟨1002, "bob", "10.0.0.2", "srv1", "RETR big.iso"⟩
def ulEntry : ScoreEntry := ⟨1003, "carol", "10.0.0.3", "srv1", "STOR file.bin"⟩
def lsEntry : ScoreEntry := ⟨1004, "dave", "10.0.0.4", "srv1", "LIST"⟩

def c1Board : List ScoreEntry := [idleEntry, dlEntry, ulEntry, lsEntry]

/-- The poll over `c1Board` with the display filter the `-U` flag sets. -/
def c1Poll : PollState :=
  pollStep FTPTOP_SHOW_UPLOAD (Except.ok c1Board) initPollState

/-! ## Helper lemmas -/

/-- A run whose input trace never delivers the quit key neither exits nor
tears the terminal down. -/
theorem displayLoop_no_quit (delay disp : Nat) (inputs : List LoopInput) :
    ∀ st : PollState, (∀ j ∈ inputs, isQuit (readKey delay j) = false) →
      (displayLoop delay disp st inputs).exitCode = none ∧
      (displayLoop delay disp st inputs).endwins = 0 := by
  induction inputs with
  | nil => intro st _; exact ⟨rfl, rfl⟩
  | cons i rest ih =>
    intro st h
    have hi : isQuit (readKey delay i) = false := h i (List.mem_cons_self i rest)
    have hrest : ∀ j ∈ rest, isQuit (readKey delay j) = false :=
      fun j hj => h j (List.mem_cons_of_mem i hj)
    have hr := ih (pollStep disp i.board st) hrest
    simp [displayLoop, hi, hr.1, hr.2]

/-- The first quit key delivered by the input trace makes the loop exit
with code 0 after exactly one `endwin`. -/
theorem displayLoop_quit (delay disp : Nat) (pre : List LoopInput) :
    ∀ (st : PollState) (i : LoopInput) (rest : List LoopInput),
      (∀ j ∈ pre, isQuit (readKey delay j) = false) →
      isQuit (readKey delay i) = true →
      (displayLoop delay disp st (pre ++ i :: rest)).exitCode = some 0 ∧
      (displayLoop delay disp st (pre ++ i :: rest)).endwins = 1 := by
  induction pre with
  | nil => intro st i rest _ hq; simp [displayLoop, hq]
  | cons p pre ih =>
    intro st i rest h hq
    have hp : isQuit (readKey delay p) = false := h p (List.mem_cons_self p pre)
    have h2 : ∀ j ∈ pre, isQuit (readKey delay j) = false :=
      fun j hj => h j (List.mem_cons_of_mem p hj)
    have hr := ih (pollStep disp p.board st) i rest h2 hq
    simp [displayLoop, hp, hr.1, hr.2]

/-- Processing a concatenated option list is processing the first part and,
if no arm exited, continuing with the second. -/
theorem process_opts_append (l1 l2 : List Opt) : ∀ cfg : Config,
    process_opts cfg (l1 ++ l2) =
      (process_opts cfg l1).bind (fun c2 => process_opts c2 l2) := by
  induction l1 with
  | nil => intro cfg; rfl
  | cons o l1 ih =>
    intro cfg
    simp only [List.cons_append, process_opts]
    cases h : stepOpt cfg o with
    | ok c2 => simp [ih]
    | error e => rfl

/-- A digit accumulation starting at a non-digit contributes nothing. -/
theorem digitsVal_of_no_head (cs : List Char) (h : headIsDigit cs = false) :
    digitsVal cs 0 = 0 := by
  cases cs with
  | nil => rfl
  | cons c2 cs2 =>
    rw [headIsDigit] at h
    rw [digitsVal]
    simp [h]

/-- C `atoi` yields 0 on any string without a leading numeric part. -/
theorem atoiChars_of_noDigitStart (l : List Char) (h : noDigitStart l = true) :
    atoiChars l = 0 := by
  induction l with
  | nil => rfl
  | cons c cs ih =>
    rw [noDigitStart] at h
    rw [atoiChars]
    by_cases hs : isSpaceCh c = true
    · simp only [hs, if_true] at h ⊢
      exact ih h
    · simp only [hs, Bool.false_eq_true, if_false] at h ⊢
      by_cases hm : (c == '-') = true
      · have hsign : (c == '-' || c == '+') = true := by simp [hm]
        simp only [hsign, if_true] at h
        have hd := digitsVal_of_no_head cs (by simpa using h)
        simp [hm, hd]
      · by_cases hp : (c == '+') = true
        · have hsign : (c == '-' || c == '+') = true := by simp [hp]
          simp only [hsign, if_true] at h
          have hd := digitsVal_of_no_head cs (by simpa using h)
          simp [hm, hp, hd]
        · have hm2 : (c == '-') = false := by simpa using hm
          have hp2 : (c == '+') = false := by simpa using hp
          simp only [hm2, hp2, Bool.or_self, Bool.false_eq_true, if_false] at h
          have hdig : c.isDigit = false := by simpa using h
          have hd : digitsVal (c :: cs) 0 = 0 := by
            rw [digitsVal]; simp [hdig]
          simp [hm2, hp2, hd]

/-- A `%-.Ns` truncation never exceeds N characters. -/
theorem strTake_length_le (n : Nat) (s : String) : (strTake n s).length ≤ n := by
  have h : (strTake n s).length = (s.toList.take n).length := rfl
  rw [h, List.length_take]
  omega

/-- A `%-.Ns` truncation leaves a short enough string alone. -/
theorem strTake_of_length_le (n : Nat) (s : String) (h : s.length ≤ n) :
    strTake n s = s := by
  cases s with
  | mk data =>
    simp only [strTake, String.toList]
    congr 1
    exact List.take_of_length_le h

/-- Left-justified padding reaches at least the requested width. -/
theorem padRight_length_ge (s : String) (w : Nat) : w ≤ (padRight s w).length := by
  rw [padRight, String.length_append]
  have h : (String.mk (List.replicate (w - s.length) ' ')).length = w - s.length := by
    have h2 : (String.mk (List.replicate (w - s.length) ' ')).length =
        (List.replicate (w - s.length) ' ').length := rfl
    rw [h2, List.length_replicate]
  rw [h]
  omega

/-! ## Claim theorems -/

/-- Claim C1, counterexample.  Over a scoreboard with one idle, one
downloading, one uploading and one listing session and the `-U` display
filter, the claim says exactly one row (the upload) is emitted and the
summary total equals 4.  In fact the listing row is also emitted (listing
rows are never filterable) and the printed total — `ftp_nsessions`, which
only counts emitted rows — equals 2, so both parts fail. -/
theorem c1_upload_filter_counterexample :
    ((c1Poll.ftp_sessions.length == 1) || (c1Poll.counters.ftp_nsessions == 4)) = false := by
  decide

/-- Claim C1, amended.  With the display filter set to Upload by the `-U`
flag, the poll over one idle, one downloading, one uploading and one
listing session emits exactly two rows — the upload and the listing (the
latter is never filterable) — the idle/download/upload counters each
report 1, and the summary line's total reports 2, counting only the
emitted rows. -/
theorem c1_upload_filter_amended :
    process_opts initConfig [Opt.U] = Except.ok ⟨2, FTPTOP_SHOW_UPLOAD, none⟩ ∧
    c1Poll.ftp_sessions =
      [formatRow 1003 "U" "carol" "10.0.0.3" "srv1" "STOR file.bin",
        formatRow 1004 "L" "dave" "10.0.0.4" "srv1" "LIST"] ∧
    c1Poll.counters.ftp_nidles = 1 ∧
    c1Poll.counters.ftp_ndownloads = 1 ∧
    c1Poll.counters.ftp_nuploads = 1 ∧
    c1Poll.counters.ftp_nsessions = 2 ∧
    summaryLine c1Poll.counters =
      "2 Total FTP Sessions: 1 downloading, 1 uploading, 1 idle\n" := by
  refine ⟨rfl, by decide, by decide, by decide, by decide, by decide, by decide⟩

/-- Claim C2.  For every display-filter configuration and every prior
state: a record whose command contains "(idle)" is classified Idle and
bumps the idle counter exactly once, even when the Idle filter bit is
cleared and the row is therefore not emitted; likewise a non-idle record
containing "RETR" bumps the download counter, and a non-idle non-RETR
record containing "STOR"/"APPE"/"STOU" bumps the upload counter,
regardless of the filter. -/
theorem c2_counters_regardless_of_filter (disp : Nat) (st : PollState) (sc : ScoreEntry) :
    (strstr sc.sce_cmd "(idle)" = true →
      classify sc.sce_cmd = Status.I ∧
      (processEntry disp st sc).counters.ftp_nidles = st.counters.ftp_nidles + 1 ∧
      (disp &&& FTPTOP_SHOW_IDLE = 0 →
        (processEntry disp st sc).ftp_sessions = st.ftp_sessions)) ∧
    (strstr sc.sce_cmd "(idle)" = false → strstr sc.sce_cmd "RETR" = true →
      (processEntry disp st sc).counters.ftp_ndownloads = st.counters.ftp_ndownloads + 1 ∧
      (disp &&& FTPTOP_SHOW_DOWNLOAD = 0 →
        (processEntry disp st sc).ftp_sessions = st.ftp_sessions)) ∧
    (strstr sc.sce_cmd "(idle)" = false → strstr sc.sce_cmd "RETR" = false →
      (strstr sc.sce_cmd "STOR" || strstr sc.sce_cmd "APPE" || strstr sc.sce_cmd "STOU") = true →
      (processEntry disp st sc).counters.ftp_nuploads = st.counters.ftp_nuploads + 1 ∧
      (disp &&& FTPTOP_SHOW_UPLOAD = 0 →
        (processEntry disp st sc).ftp_sessions = st.ftp_sessions)) := by
  refine ⟨?_, ?_, ?_⟩
  · intro h
    have hc : classify sc.sce_cmd = Status.I := by simp [classify, h]
    refine ⟨hc, ?_, ?_⟩
    · simp only [processEntry, hc, bumpCounters]
      split <;> simp
    · intro hx
      have he : shouldEmit disp Status.I = false := by simp [shouldEmit, hx]
      simp [processEntry, hc, he]
  · intro h hr
    have hc : classify sc.sce_cmd = Status.D := by simp [classify, h, hr]
    refine ⟨?_, ?_⟩
    · simp only [processEntry, hc, bumpCounters]
      split <;> simp
    · intro hx
      have he : shouldEmit disp Status.D = false := by simp [shouldEmit, hx]
      simp [processEntry, hc, he]
  · intro h hr hu
    have hc : classify sc.sce_cmd = Status.U := by simp [classify, h, hr, hu]
    refine ⟨?_, ?_⟩
    · simp only [processEntry, hc, bumpCounters]
      split <;> simp
    · intro hx
      have he : shouldEmit disp Status.U = false := by simp [shouldEmit, hx]
      simp [processEntry, hc, he]

/-- Claim C2, witness.  With a display filter of 0 (everything excluded),
the idle record still bumps the idle counter while emitting no row, and
the download and upload records still bump their counters. -/
theorem c2_counters_regardless_of_filter_witness :
    ((processEntry 0 initPollState idleEntry).counters.ftp_nidles =
      initPollState.counters.ftp_nidles + 1) ∧
    (processEntry 0 initPollState idleEntry).ftp_sessions = initPollState.ftp_sessions ∧
    ((processEntry 0 initPollState dlEntry).counters.ftp_ndownloads =
      initPollState.counters.ftp_ndownloads + 1) ∧
    ((processEntry 0 initPollState ulEntry).counters.ftp_nuploads =
      initPollState.counters.ftp_nuploads + 1) := by
  have h1 := (c2_counters_regardless_of_filter 0 initPollState idleEntry).1 (by decide)
  have h2 := (c2_counters_regardless_of_filter 0 initPollState dlEntry).2.1
    (by decide) (by decide)
  have h3 := (c2_counters_regardless_of_filter 0 initPollState ulEntry).2.2
    (by decide) (by decide) (by decide)
  exact ⟨h1.2.1, h1.2.2 (by decide), h2.1, h3.1⟩

/-- Claim C3.  Classification follows the ordered first-match rules on the
command label: "(idle)" is Idle ("I"); otherwise "RETR" is Download ("D");
otherwise "STOR"/"APPE"/"STOU" is Upload ("U"); otherwise "LIST"/"NLST" is
Listing ("L"); any other label gets the default "A".  `classify` is a
total function, so exactly one of the five statuses is assigned. -/
theorem c3_ordered_classification (cmd : String) :
    (strstr cmd "(idle)" = true → classify cmd = Status.I ∧ statusStr (classify cmd) = "I") ∧
    (strstr cmd "(idle)" = false → strstr cmd "RETR" = true →
      classify cmd = Status.D ∧ statusStr (classify cmd) = "D") ∧
    (strstr cmd "(idle)" = false → strstr cmd "RETR" = false →
      (strstr cmd "STOR" || strstr cmd "APPE" || strstr cmd "STOU") = true →
      classify cmd = Status.U ∧ statusStr (classify cmd) = "U") ∧
    (strstr cmd "(idle)" = false → strstr cmd "RETR" = false →
      (strstr cmd "STOR" || strstr cmd "APPE" || strstr cmd "STOU") = false →
      (strstr cmd "LIST" || strstr cmd "NLST") = true →
      classify cmd = Status.L ∧ statusStr (classify cmd) = "L") ∧
    (strstr cmd "(idle)" = false → strstr cmd "RETR" = false →
      (strstr cmd "STOR" || strstr cmd "APPE" || strstr cmd "STOU") = false →
      (strstr cmd "LIST" || strstr cmd "NLST") = false →
      classify cmd = Status.A ∧ statusStr (classify cmd) = "A") ∧
    (classify cmd = Status.A ∨ classify cmd = Status.I ∨ classify cmd = Status.D ∨
      classify cmd = Status.U ∨ classify cmd = Status.L) := by
  refine ⟨?_, ?_, ?_, ?_, ?_, ?_⟩
  · intro h
    have hc : classify cmd = Status.I := by simp [classify, h]
    exact ⟨hc, by simp [hc, statusStr]⟩
  · intro h hr
    have hc : classify cmd = Status.D := by simp [classify, h, hr]
    exact ⟨hc, by simp [hc, statusStr]⟩
  · intro h hr hu
    have hc : classify cmd = Status.U := by simp [classify, h, hr, hu]
    exact ⟨hc, by simp [hc, statusStr]⟩
  · intro h hr hu hl
    have hc : classify cmd = Status.L := by simp [classify, h, hr, hu, hl]
    exact ⟨hc, by simp [hc, statusStr]⟩
  · intro h hr hu hl
    have hc : classify cmd = Status.A := by simp [classify, h, hr, hu, hl]
    exact ⟨hc, by simp [hc, statusStr]⟩
  · cases hc : classify cmd <;> simp

/-- Claim C3, witness.  One concrete command per branch of the ordered
rules, each classified as the claim predicts. -/
theorem c3_ordered_classification_witness :
    (classify "(idle)" = Status.I ∧ statusStr (classify "(idle)") = "I") ∧
    (classify "RETR x" = Status.D ∧ statusStr (classify "RETR x") = "D") ∧
    (classify "STOR x" = Status.U ∧ statusStr (classify "STOR x") = "U") ∧
    (classify "LIST" = Status.L ∧ statusStr (classify "LIST") = "L") ∧
    (classify "PASS" = Status.A ∧ statusStr (classify "PASS") = "A") :=
  ⟨(c3_ordered_classification "(idle)").1 (by decide),
    (c3_ordered_classification "RETR x").2.1 (by decide) (by decide),
    (c3_ordered_classification "STOR x").2.2.1 (by decide) (by decide) (by decide),
    (c3_ordered_classification "LIST").2.2.2.1 (by decide) (by decide) (by decide) (by decide),
    (c3_ordered_classification "PASS").2.2.2.2.1 (by decide) (by decide) (by decide) (by decide)⟩

/-- Claim C4, counterexample.  At refresh delay 0 — the case the claim
singles out — `halfdelay(0 * 10)` returns ERR, so `getch` is never
called: a run at delay 0 whose user has 'q' pending never reads it, never
exits and never restores the terminal, refuting "for every run
configuration (including refreshDelaySeconds = 0) pressing 'q' exits with
code 0". -/
theorem c4_quit_key_counterexample :
    halfdelayOk 0 = false ∧
    (ftopMain 0 FTPTOP_SHOW_ALL (Except.ok []) [⟨some 'q', Except.ok []⟩]).exitCode
      = none ∧
    (ftopMain 0 FTPTOP_SHOW_ALL (Except.ok []) [⟨some 'q', Except.ok []⟩]).endwins
      = 0 := by
  refine ⟨by decide, by decide, by decide⟩

/-- Claim C4, amended.  For every display filter and scoreboard contents:
when `halfdelay(delay * 10)` succeeds (1 ≤ delay·10 ≤ 255, so 1 ≤ delay ≤
25) and an iteration's pending key is 'q' or 'Q' (case-insensitively via
`tolower`), the run exits with code 0 after restoring the terminal
(`endwin`) exactly once, no matter how many non-quitting iterations
preceded; whereas when `halfdelay` fails (in particular at delay 0) the
key is never read and the loop neither exits nor tears down. -/
theorem c4_quit_key_amended (delay disp : Nat)
    (b0 : Except ScoreboardError (List ScoreEntry)) (pre : List LoopInput)
    (i : LoopInput) (rest : List LoopInput) (c : Char) :
    (halfdelayOk delay = true → i.key = some c → c.toLower = 'q' →
      (∀ j ∈ pre, isQuit (readKey delay j) = false) →
      (ftopMain delay disp b0 (pre ++ i :: rest)).exitCode = some 0 ∧
      (ftopMain delay disp b0 (pre ++ i :: rest)).endwins = 1) ∧
    (halfdelayOk delay = false →
      (ftopMain delay disp b0 (pre ++ i :: rest)).exitCode = none ∧
      (ftopMain delay disp b0 (pre ++ i :: rest)).endwins = 0) := by
  constructor
  · intro hd hc hq hpre
    have hqi : isQuit (readKey delay i) = true := by
      simp [readKey, isQuit, hd, hc, hq]
    have h := displayLoop_quit delay disp pre (pollStep disp b0 initPollState)
      i rest hpre hqi
    simp [ftopMain, h.1, h.2]
  · intro hfd
    have hnone : ∀ j ∈ pre ++ i :: rest, isQuit (readKey delay j) = false := by
      intro j _
      simp [readKey, hfd, isQuit]
    have h := displayLoop_no_quit delay disp (pre ++ i :: rest)
      (pollStep disp b0 initPollState) hnone
    simp [ftopMain, h.1, h.2]

/-- Claim C4, witness.  A run with delay 2 quit by 'Q' exits 0 with
exactly one terminal restore, and a run with delay 0 and a pending 'q'
keeps running with no teardown. -/
theorem c4_quit_key_amended_witness :
    ((ftopMain 2 FTPTOP_SHOW_ALL (Except.ok []) [⟨some 'Q', Except.ok []⟩]).exitCode
        = some 0 ∧
      (ftopMain 2 FTPTOP_SHOW_ALL (Except.ok []) [⟨some 'Q', Except.ok []⟩]).endwins
        = 1) ∧
    ((ftopMain 0 FTPTOP_SHOW_ALL (Except.ok []) [⟨some 'q', Except.ok []⟩]).exitCode
        = none ∧
      (ftopMain 0 FTPTOP_SHOW_ALL (Except.ok []) [⟨some 'q', Except.ok []⟩]).endwins
        = 0) :=
  ⟨(c4_quit_key_amended 2 FTPTOP_SHOW_ALL (Except.ok []) []
      ⟨some 'Q', Except.ok []⟩ [] 'Q').1 (by decide) rfl (by decide) (by simp),
    (c4_quit_key_amended 0 FTPTOP_SHOW_ALL (Except.ok []) []
      ⟨some 'q', Except.ok []⟩ [] 'q').2 (by decide)⟩

/-- Claim C5.  Processing `-d` with argument string `s`: when
`atoi s ≥ 0` the delay is set to that value and option processing
continues; when `atoi s < 0` the process exits with code 1 after printing
the negative-delay diagnostic, with no further option processed. -/
theorem c5_delay_option_validation (cfg : Config) (s : String) (rest : List Opt) :
    (0 ≤ atoi s →
      process_opts cfg (Opt.d s :: rest) = process_opts { cfg with delay := atoi s } rest) ∧
    (atoi s < 0 →
      process_opts cfg (Opt.d s :: rest) =
        Except.error (1, program ++ ": negative delay illegal: " ++ (atoi s).repr ++ "\n")) := by
  constructor
  · intro h
    have hn : ¬ atoi s < 0 := not_lt.mpr h
    simp [process_opts, stepOpt, hn]
  · intro h
    simp [process_opts, stepOpt, h]

/-- Claim C5, witness.  `-d 3` is accepted and sets the delay to 3;
`-d -4` exits with code 1 and the diagnostic text. -/
theorem c5_delay_option_validation_witness :
    (0 ≤ atoi "3" ∧
      process_opts initConfig [Opt.d "3"] = Except.ok { initConfig with delay := 3 }) ∧
    (atoi "-4" < 0 ∧
      process_opts initConfig [Opt.d "-4"] =
        Except.error (1, "ftptop: negative delay illegal: -4\n")) := by
  constructor
  · refine ⟨by decide, ?_⟩
    rw [(c5_delay_option_validation initConfig "3" []).1 (by decide)]
    rfl
  · refine ⟨by decide, ?_⟩
    rw [(c5_delay_option_validation initConfig "-4" []).2 (by decide)]
    rfl

/-- Claim C6.  An open failure of any of the four kinds leaves the poll
with zero counters and no rows, the summary line then reports zero total
sessions, each failure kind has its diagnostic text, and a run whose
inputs never deliver the quit key never exits, whatever the scoreboard
open results of its polls are. -/
theorem c6_open_failure_nonfatal :
    (∀ (disp : Nat) (e : ScoreboardError) (st : PollState),
      pollStep disp (Except.error e) st = initPollState) ∧
    summaryLine initPollState.counters =
      "0 Total FTP Sessions: 0 downloading, 0 uploading, 0 idle\n" ∧
    initPollState.ftp_sessions = [] ∧
    scoreboard_open_msg ScoreboardError.badMagic = "ftptop: scoreboard is corrupted or old\n" ∧
    scoreboard_open_msg ScoreboardError.olderVersion = "ftptop: scoreboard is too old\n" ∧
    scoreboard_open_msg ScoreboardError.newerVersion = "ftptop: scoreboard is too new\n" ∧
    (∀ s : String, scoreboard_open_msg (ScoreboardError.notAccessible s) =
      "ftptop: unable to open scoreboard: " ++ s ++ "\n") ∧
    (∀ (delay disp : Nat) (b0 : Except ScoreboardError (List ScoreEntry))
      (inputs : List LoopInput),
      (∀ j ∈ inputs, isQuit (readKey delay j) = false) →
      (ftopMain delay disp b0 inputs).exitCode = none ∧
      (ftopMain delay disp b0 inputs).endwins = 0) := by
  refine ⟨fun disp e st => rfl, by decide, rfl, by decide, by decide, by decide,
    fun s => rfl, ?_⟩
  intro delay disp b0 inputs h
  have hr := displayLoop_no_quit delay disp inputs (pollStep disp b0 initPollState) h
  simp [ftopMain, hr.1, hr.2]

/-- Claim C6, witness.  A run whose startup poll and first loop poll both
fail with the too-old error keeps running (no exit, no teardown). -/
theorem c6_open_failure_nonfatal_witness :
    (ftopMain 2 FTPTOP_SHOW_ALL (Except.error ScoreboardError.olderVersion)
        [⟨none, Except.error ScoreboardError.olderVersion⟩]).exitCode = none ∧
    (ftopMain 2 FTPTOP_SHOW_ALL (Except.error ScoreboardError.olderVersion)
        [⟨none, Except.error ScoreboardError.olderVersion⟩]).endwins = 0 :=
  c6_open_failure_nonfatal.2.2.2.2.2.2.2 2 FTPTOP_SHOW_ALL
    (Except.error ScoreboardError.olderVersion)
    [⟨none, Except.error ScoreboardError.olderVersion⟩]
    (by intro j hj; simp at hj; subst hj; decide)

/-- Claim C7.  `-i` clears exactly the Idle bit of the display filter,
preserving the Download and Upload bits; `-D`, `-I` and `-U` each replace
the whole filter with their single category; and after any successfully
processed option list, appending one of `-D`/`-I`/`-U` makes that flag's
singleton the final filter, so the last such flag wins. -/
theorem c7_filter_flag_semantics :
    (∀ cfg : Config,
      stepOpt cfg Opt.i =
        Except.ok { cfg with display_session := cfg.display_session &&& NOT_SHOW_IDLE } ∧
      (cfg.display_session &&& NOT_SHOW_IDLE).testBit 0 = cfg.display_session.testBit 0 ∧
      (cfg.display_session &&& NOT_SHOW_IDLE).testBit 1 = cfg.display_session.testBit 1 ∧
      (cfg.display_session &&& NOT_SHOW_IDLE).testBit 2 = false) ∧
    (∀ cfg : Config,
      stepOpt cfg Opt.D = Except.ok { cfg with display_session := FTPTOP_SHOW_DOWNLOAD }) ∧
    (∀ cfg : Config,
      stepOpt cfg Opt.I = Except.ok { cfg with display_session := FTPTOP_SHOW_IDLE }) ∧
    (∀ cfg : Config,
      stepOpt cfg Opt.U = Except.ok { cfg with display_session := FTPTOP_SHOW_UPLOAD }) ∧
    (∀ (cfg cfg2 : Config) (l : List Opt), process_opts cfg l = Except.ok cfg2 →
      process_opts cfg (l ++ [Opt.D]) =
        Except.ok { cfg2 with display_session := FTPTOP_SHOW_DOWNLOAD } ∧
      process_opts cfg (l ++ [Opt.I]) =
        Except.ok { cfg2 with display_session := FTPTOP_SHOW_IDLE } ∧
      process_opts cfg (l ++ [Opt.U]) =
        Except.ok { cfg2 with display_session := FTPTOP_SHOW_UPLOAD }) := by
  have hD : (0 ||| FTPTOP_SHOW_DOWNLOAD) = FTPTOP_SHOW_DOWNLOAD := by decide
  have hI : (0 ||| FTPTOP_SHOW_IDLE) = FTPTOP_SHOW_IDLE := by decide
  have hU : (0 ||| FTPTOP_SHOW_UPLOAD) = FTPTOP_SHOW_UPLOAD := by decide
  refine ⟨?_, ?_, ?_, ?_, ?_⟩
  · intro cfg
    refine ⟨rfl, ?_, ?_, ?_⟩
    · rw [Nat.testBit_land]
      have h0 : NOT_SHOW_IDLE.testBit 0 = true := by decide
      simp [h0]
    · rw [Nat.testBit_land]
      have h1 : NOT_SHOW_IDLE.testBit 1 = true := by decide
      simp [h1]
    · rw [Nat.testBit_land]
      have h2 : NOT_SHOW_IDLE.testBit 2 = false := by decide
      simp [h2]
  · intro cfg; simp [stepOpt, hD]
  · intro cfg; simp [stepOpt, hI]
  · intro cfg; simp [stepOpt, hU]
  · intro cfg cfg2 l h
    refine ⟨?_, ?_, ?_⟩ <;>
      simp [process_opts_append, h, Except.bind, process_opts, stepOpt, hD, hI, hU]

/-- Claim C7, witness.  After `-D`, appending `-U` leaves exactly the
Upload bit: the last wholesale flag wins. -/
theorem c7_filter_flag_semantics_witness :
    process_opts initConfig ([Opt.D] ++ [Opt.U]) =
      Except.ok { Config.mk 2 FTPTOP_SHOW_DOWNLOAD none with
        display_session := FTPTOP_SHOW_UPLOAD } :=
  (c7_filter_flag_semantics.2.2.2.2 initConfig
    (Config.mk 2 FTPTOP_SHOW_DOWNLOAD none) [Opt.D] (by rfl)).2.2

/-- Claim C8.  A poll is a pure function of the display filter and the
scoreboard snapshot: repeating it on an unchanged snapshot reproduces the
identical rows (byte for byte, in order) and counters, because
`clear_counters` erases all state from the previous poll first. -/
theorem c8_poll_idempotent (disp : Nat)
    (board : Except ScoreboardError (List ScoreEntry)) (s1 s2 : PollState) :
    pollStep disp board (pollStep disp board s1) = pollStep disp board s1 ∧
    pollStep disp board s1 = pollStep disp board s2 :=
  ⟨rfl, rfl⟩

/-- Claim C9.  Whenever the full row text fits `snprintf`'s 1024-byte
buffer, the emitted row is exactly: pid left-justified in 5 columns, a
one-character status symbol, the username truncated to 10, the client
address truncated to 7, the untruncated server address, the literal
placeholder column " 0 ", and the command truncated to 20, separated by
single spaces and ending in a newline. -/
theorem c9_row_format :
    (∀ st : Status, (statusStr st).length = 1) ∧
    (∀ (pid : Nat) (status user client server cmd : String),
      (rowText pid status user client server cmd).length ≤ 1023 →
      formatRow pid status user client server cmd =
        padRight (Nat.repr pid) 5 ++ " " ++ status ++ " " ++ strTake 10 user ++ " " ++
          strTake 7 client ++ " " ++ server ++ " 0 " ++ strTake 20 cmd ++ "\n" ∧
      5 ≤ (padRight (Nat.repr pid) 5).length ∧
      (strTake 10 user).length ≤ 10 ∧
      (strTake 7 client).length ≤ 7 ∧
      (strTake 20 cmd).length ≤ 20) := by
  constructor
  · intro st; cases st <;> rfl
  · intro pid status user client server cmd h
    refine ⟨?_, padRight_length_ge _ _, strTake_length_le _ _, strTake_length_le _ _,
      strTake_length_le _ _⟩
    rw [formatRow, strTake_of_length_le _ _ h]
    rfl

/-- Claim C9, witness.  The upload row of the concrete scenario follows
the fixed layout with all truncation bounds respected. -/
theorem c9_row_format_witness :
    (rowText 1003 "U" "carol" "10.0.0.3" "srv1" "STOR file.bin").length ≤ 1023 ∧
    (formatRow 1003 "U" "carol" "10.0.0.3" "srv1" "STOR file.bin" =
      padRight (Nat.repr 1003) 5 ++ " " ++ "U" ++ " " ++ strTake 10 "carol" ++ " " ++
        strTake 7 "10.0.0.3" ++ " " ++ "srv1" ++ " 0 " ++ strTake 20 "STOR file.bin" ++ "\n" ∧
      5 ≤ (padRight (Nat.repr 1003) 5).length ∧
      (strTake 10 "carol").length ≤ 10 ∧
      (strTake 7 "10.0.0.3").length ≤ 7 ∧
      (strTake 20 "STOR file.bin").length ≤ 20) :=
  ⟨by decide, c9_row_format.2 1003 "U" "carol" "10.0.0.3" "srv1" "STOR file.bin" (by decide)⟩

/-- Claim C10.  A `-d` argument with no leading numeric part is not
rejected: `atoi` converts it to 0, so the parser silently continues with
`delay = 0`. -/
theorem c10_nonnumeric_delay_accepted (cfg : Config) (s : String) (rest : List Opt)
    (h : noDigitStart s.toList = true) :
    process_opts cfg (Opt.d s :: rest) = process_opts { cfg with delay := 0 } rest := by
  have h0 : atoi s = 0 := atoiChars_of_noDigitStart s.toList h
  simp [process_opts, stepOpt, h0]

/-- Claim C10, witness.  `-d abc` is accepted and the tool runs with a
refresh delay of 0. -/
theorem c10_nonnumeric_delay_accepted_witness :
    noDigitStart "abc".toList = true ∧
    process_opts initConfig [Opt.d "abc"] = Except.ok { initConfig with delay := 0 } := by
  refine ⟨by decide, ?_⟩
  rw [c10_nonnumeric_delay_accepted initConfig "abc" [] (by decide)]
  rfl

end Ftptop
